import Mathlib

/-!
Verification of the Polymarket screener's feature/scoring engine.

The Python source operates on pandas DataFrames; here each table is a
`List` of records, every possibly-missing cell is an `Option`, exact
rational arithmetic (`ℚ`) replaces floating point, and `ℝ` with
`Real.log` models `np.log1p`-based scores.  Timestamps are rational
numbers of seconds.  Column-level absence (pandas `"c" in df.columns`)
is modelled explicitly where the source branches on it.
-/

namespace Polymarkets

/-- The nine boolean tag flags produced by `add_domain_flags`
(features.py, lines 112-120), in source assignment order. -/
structure TagFlags where
  is_elections : Bool
  is_global_elections : Bool
  is_politics : Bool
  is_crypto : Bool
  is_crypto_prices : Bool
  is_tech : Bool
  is_finance : Bool
  is_sports : Bool
  is_culture : Bool
deriving Repr, DecidableEq

/-- The chained `if/elif` of `add_domain_flags` (features.py, lines
124-142) that chooses the single `domain` label from the flags. -/
def domainLabel (f : TagFlags) : String :=
  if f.is_sports then "Sports"
  else if f.is_global_elections || f.is_elections then "Elections"
  else if f.is_politics then "Politics"
  else if f.is_crypto_prices then "Crypto Prices"
  else if f.is_crypto then "Crypto"
  else if f.is_tech then "Tech"
  else if f.is_finance then "Finance"
  else if f.is_culture then "Culture"
  else "Other"

/-- `band_liq` (3_Trading_Screener.py, lines 17-28).  `none` models the
`x is None or np.isnan(x)` guard. -/
def band_liq : Option ℚ → ℚ
  | none => 0
  | some x =>
    if x ≤ 100 then 0
    else if 100 < x ∧ x < 200 then (x - 100) / 100
    else if 200 ≤ x ∧ x ≤ 5000 then 1.0
    else if 5000 < x ∧ x < 25000 then 1 - (x - 5000) / 20000
    else 0

/-- `band_vol` (3_Trading_Screener.py, lines 30-41). -/
def band_vol : Option ℚ → ℚ
  | none => 0
  | some x =>
    if x ≤ 10 then 0
    else if 10 < x ∧ x < 50 then (x - 10) / 40
    else if 50 ≤ x ∧ x ≤ 5000 then 1.0
    else if 5000 < x ∧ x < 50000 then 1 - (x - 5000) / 45000
    else 0

/-- `band_spread` (3_Trading_Screener.py, lines 43-52). -/
def band_spread : Option ℚ → ℚ
  | none => 0
  | some x =>
    if x ≤ 0 then 0
    else if x < 0.005 then x / 0.005
    else if 0.005 ≤ x ∧ x ≤ 0.05 then 1.0
    else if 0.05 < x ∧ x < 0.15 then 1 - (x - 0.05) / 0.10
    else 0

/-- `band_time` (3_Trading_Screener.py, lines 54-63). -/
def band_time : Option ℚ → ℚ
  | none => 0
  | some x =>
    if x < 0 then 0
    else if 0 ≤ x ∧ x < 7 then x / 7
    else if 7 ≤ x ∧ x ≤ 60 then 1.0
    else if 60 < x ∧ x < 120 then 1 - (x - 60) / 60
    else 0

/-- `pat` is a (character-for-character) leading segment of `s`. -/
def startsWith : List Char → List Char → Bool
  | [], _ => true
  | _ :: _, [] => false
  | p :: ps, c :: cs => p == c && startsWith ps cs

/-- Python's `pat in s` for strings: `pat` occurs contiguously in `s`. -/
def containsSub (pat : List Char) : List Char → Bool
  | [] => startsWith pat []
  | c :: cs => startsWith pat (c :: cs) || containsSub pat cs

/-- String-level wrapper for `containsSub`. -/
def str_contains (pat s : String) : Bool :=
  containsSub pat.toList s.toList

/-- Case-insensitive containment: both sides lowered first, as in
`search.lower()` against `.str.lower()` and `case=False` matching. -/
def str_contains_ci (pat s : String) : Bool :=
  containsSub (pat.toList.map Char.toLower) (s.toList.map Char.toLower)

/-- A regex word character (`\w` over the tags' ASCII alphabet). -/
def isWordChar (c : Char) : Bool := c.isAlphanum || c == '_'

/-- A position boundary is acceptable when the neighbouring character
is absent or not a word character. -/
def notWordAt (c? : Option Char) : Bool :=
  match c? with
  | none => true
  | some c => !isWordChar c

/-- Does `name` match at the head of `s` with `\b` boundaries on both
sides?  `prev` is the character just before this position (`none` at
the start of the string).  All nine tag names begin and end with word
characters, so `\b` there demands a non-word (or absent) neighbour. -/
def matchWordB (name : List Char) (prev : Option Char) (s : List Char) : Bool :=
  startsWith name s && notWordAt prev && notWordAt (s.drop name.length).head?

/-- Scan of `s.str.contains(rf"\b{name}\b")`: try a word-boundary match
at every position, threading the preceding character. -/
def hasTagAux (name : List Char) : Option Char → List Char → Bool
  | prev, [] => matchWordB name prev []
  | prev, c :: cs => matchWordB name prev (c :: cs) || hasTagAux name (some c) cs

/-- `has_tag` inside `add_domain_flags` (features.py, lines 108-110). -/
def has_tag (name s : String) : Bool :=
  hasTagAux name.toList none s.toList

/-- Word-boundary, case-insensitive matching, as in the screener's
`str.contains(r"\bSports\b", case=False, regex=True)`.  `Char.toLower`
preserves word-character status, so lowering both sides first is the
case-insensitive reading of the same regex. -/
def has_tag_ci (name s : String) : Bool :=
  hasTagAux (name.toList.map Char.toLower) none (s.toList.map Char.toLower)

/-- `add_domain_flags` flag block (features.py, lines 106-120) for one
record: missing tag text is `fillna("")`, then nine word-boundary
matches. -/
def mkTagFlags (tags : Option String) : TagFlags :=
  let s := tags.getD ""
  { is_elections := has_tag "Elections" s
    is_global_elections := has_tag "Global Elections" s
    is_politics := has_tag "Politics" s
    is_crypto := has_tag "Crypto" s
    is_crypto_prices := has_tag "Crypto Prices" s
    is_tech := has_tag "Tech" s
    is_finance := has_tag "Finance" s
    is_sports := has_tag "Sports" s
    is_culture := has_tag "Culture" s }

/-- `dom_mult` (3_Trading_Screener.py, lines 65-83): base multiplier by
domain, halved when the event title contains "Up or Down". -/
def dom_mult (domain title : String) : ℚ :=
  let base : ℚ :=
    if domain = "Elections" ∨ domain = "Global Elections" ∨ domain = "Politics" then 1.0
    else if domain = "Tech" ∨ domain = "Finance" ∨ domain = "Crypto" then 0.9
    else if domain = "Culture" then 0.7
    else if domain = "Sports" then 0.4
    else 0.8
  if str_contains "Up or Down" title then base * 0.5 else base

/-- The four inputs `compute_quality_score` reads from the table
(features.py, lines 160-163); `spread` and `time_to_resolution_days`
are the derived columns. -/
structure QInput where
  liquidity_num : Option ℚ
  volume_24h : Option ℚ
  spread : Option ℚ
  time_to_resolution_days : Option ℚ
deriving Repr, DecidableEq

/-- `liq.max()` over the `fillna(0)` liquidity column, as used under
the `max_liq > 0` guard.  Folding `max` with seed 0 agrees with the
pandas maximum whenever that guard can succeed (and both sides fall to
the zero branch on an empty or non-positive column). -/
def max_liq_of (rows : List QInput) : ℚ :=
  (rows.map (fun r => r.liquidity_num.getD 0)).foldr max 0

/-- The liquidity component of `compute_quality_score` (features.py,
lines 165-170): `np.log1p(liq) / np.log1p(max_liq)` when the column
maximum is positive, else 0. -/
noncomputable def liq_score (max_liq liq : ℚ) : ℝ :=
  if 0 < max_liq then Real.log (1 + liq) / Real.log (1 + max_liq) else 0

/-- `vol_score` (features.py, line 173): volume capped at 1000. -/
def vol_score (vol : ℚ) : ℚ := min (vol / 1000) 1

/-- `spread_score` (features.py, lines 175-179): missing spread is
treated as 1.0, clamped non-negative, any spread at or above 0.10
scores 0. -/
def spread_score (spread : Option ℚ) : ℚ :=
  1 - min (max (spread.getD 1.0) 0 / 0.10) 1

/-- `time_score` (features.py, lines 181-184): missing time is treated
as 100 days, clamped non-negative, capped at 100 days. -/
def time_score (ttr : Option ℚ) : ℚ :=
  1 - min (max (ttr.getD 100.0) 0 / 100) 1

/-- `compute_quality_score` (features.py, lines 149-194) for one
record, with the table-relative maximum passed explicitly.  The final
`fillna(0.0)` guards against NaN, which the exact model cannot
produce; the function is total as written. -/
noncomputable def compute_quality_score (max_liq : ℚ) (r : QInput) : ℝ :=
  0.35 * liq_score max_liq (r.liquidity_num.getD 0)
    + 0.30 * ((vol_score (r.volume_24h.getD 0) : ℚ) : ℝ)
    + 0.20 * ((spread_score r.spread : ℚ) : ℝ)
    + 0.15 * ((time_score r.time_to_resolution_days : ℚ) : ℝ)

/-- The per-record body of `compute_alpha_score`
(3_Trading_Screener.py, lines 85-99): banded blend times domain
multiplier times quality score (`df.get("quality_score", 1.0)`). -/
noncomputable def compute_alpha_score (liq vol spr ttr : Option ℚ)
    (domain title : String) (quality : ℝ) : ℝ :=
  ((0.30 * band_liq liq + 0.25 * band_vol vol
      + 0.20 * band_spread spr + 0.25 * band_time ttr : ℚ) : ℝ)
    * ((dom_mult domain title : ℚ) : ℝ) * quality

/-- The three candidate resolution-timestamp cells of one record
(seconds since the epoch; `none` is NaT). -/
structure TimeRow where
  market_endDateIso : Option ℚ
  market_endDate : Option ℚ
  event_endDate : Option ℚ
deriving Repr, DecidableEq

/-- Which of the three end-date columns exist in the table: the
`"c" in df.columns` tests of features.py, lines 30-35. -/
structure TimeCols where
  hasIso : Bool
  hasEnd : Bool
  hasEvt : Bool
deriving Repr, DecidableEq

/-- The `end` series selection (features.py, lines 29-35): the first
column present wins, independently of per-row missingness; `df.get`
yields `none` when even `event_endDate` is absent. -/
def end_series (cols : TimeCols) (r : TimeRow) : Option ℚ :=
  if cols.hasIso then r.market_endDateIso
  else if cols.hasEnd then r.market_endDate
  else if cols.hasEvt then r.event_endDate
  else none

/-- `time_to_resolution_days` (features.py, lines 37-40):
`(end - now).dt.total_seconds() / (60 * 60 * 24)`, missing whenever
the selected cell is missing or no column was present. -/
def time_to_resolution_days (cols : TimeCols) (now : ℚ) (r : TimeRow) : Option ℚ :=
  (end_series cols r).map (fun e => (e - now) / (60 * 60 * 24))

/-- Strip characters satisfying `p` from both ends (Python `strip`). -/
def stripChars (p : Char → Bool) (s : List Char) : List Char :=
  ((s.dropWhile p).reverse.dropWhile p).reverse

/-- Python `str.split(sep)`: split at every separator, keeping empty
pieces. -/
def splitOnChar (sep : Char) : List Char → List (List Char)
  | [] => [[]]
  | c :: cs =>
    if c == sep then [] :: splitOnChar sep cs
    else
      match splitOnChar sep cs with
      | [] => [[c]]
      | t :: ts => (c :: t) :: ts

/-- `_looks_binary` (features.py, lines 62-84): missing is false; a
bracketed list is split on commas with whitespace and quote characters
stripped; otherwise split on commas, else pipes, else the whole text;
true iff exactly two non-empty tokens remain.  `Char.ofNat 34` and
`Char.ofNat 39` are the double and single quote. -/
def _looks_binary (outcomes_raw : Option String) : Bool :=
  match outcomes_raw with
  | none => false
  | some o =>
    let text := stripChars Char.isWhitespace o.toList
    let candidates :=
      if startsWith [Char.ofNat 91] text && startsWith [Char.ofNat 93] text.reverse then
        (splitOnChar ',' (text.drop 1).dropLast).map (fun x =>
          stripChars (fun c => c == Char.ofNat 39)
            (stripChars (fun c => c == Char.ofNat 34)
              (stripChars Char.isWhitespace x)))
      else if containsSub [','] text then
        (splitOnChar ',' text).map (stripChars Char.isWhitespace)
      else if containsSub ['|'] text then
        (splitOnChar '|' text).map (stripChars Char.isWhitespace)
      else [text]
    (candidates.filter (fun c => !c.isEmpty)).length == 2

/-- One normalized input row, with the raw fields the core reads.
Every cell that pandas could hold as NaN/NaT is an `Option`. -/
structure Row where
  event_title : Option String
  market_question : Option String
  event_tags_labels : Option String
  outcomes_raw : Option String
  bestBid : Option ℚ
  bestAsk : Option ℚ
  liquidity_num : Option ℚ
  volume_24h : Option ℚ
  market_endDateIso : Option ℚ
  market_endDate : Option ℚ
  event_endDate : Option ℚ
  market_active : Option Bool
  market_closed : Option Bool
  enable_order_book : Option Bool
  accepting_orders : Option Bool
deriving Repr, DecidableEq

/-- `spread` (features.py, lines 17-22): `bestAsk - bestBid`, missing
when either side is. -/
def mkSpread (r : Row) : Option ℚ :=
  match r.bestBid, r.bestAsk with
  | some b, some a => some (a - b)
  | _, _ => none

/-- `mid_price` (features.py, line 19): `(bestBid + bestAsk) / 2`. -/
def mkMid (r : Row) : Option ℚ :=
  match r.bestBid, r.bestAsk with
  | some b, some a => some ((b + a) / 2)
  | _, _ => none

/-- The quality-score inputs of one row as `add_features` prepares
them: raw liquidity and volume plus the derived spread and time. -/
def qinput (cols : TimeCols) (now : ℚ) (r : Row) : QInput :=
  { liquidity_num := r.liquidity_num
    volume_24h := r.volume_24h
    spread := mkSpread r
    time_to_resolution_days :=
      time_to_resolution_days cols now
        ⟨r.market_endDateIso, r.market_endDate, r.event_endDate⟩ }

/-- One row after `add_features` (features.py, lines 10-59): raw
fields plus every derived column a later stage reads. -/
structure FeatRow where
  row : Row
  spread : Option ℚ
  mid_price : Option ℚ
  time_to_resolution_days : Option ℚ
  is_binary_like : Bool
  flags : TagFlags
  domain : String
  quality_score : ℝ

/-- `add_features` over a table: derive the columns rowwise, then the
quality score against the table-wide liquidity maximum. -/
noncomputable def add_features (cols : TimeCols) (now : ℚ) (rows : List Row) :
    List FeatRow :=
  let m := max_liq_of (rows.map (qinput cols now))
  rows.map (fun r =>
    { row := r
      spread := mkSpread r
      mid_price := mkMid r
      time_to_resolution_days :=
        time_to_resolution_days cols now
          ⟨r.market_endDateIso, r.market_endDate, r.event_endDate⟩
      is_binary_like := _looks_binary r.outcomes_raw
      flags := mkTagFlags r.event_tags_labels
      domain := domainLabel (mkTagFlags r.event_tags_labels)
      quality_score := compute_quality_score m (qinput cols now r) })

/-- The tradeable-only predicate (filters.py, lines 22-28): missing
status flags default permissive via `df.get(col, default)`. -/
def tradeable_row (r : Row) : Bool :=
  r.market_active.getD true && !(r.market_closed.getD false)
    && r.enable_order_book.getD true && r.accepting_orders.getD true

/-- The tradeable-only filter step (filters.py, lines 22-28). -/
def tradeable_step (rows : List FeatRow) : List FeatRow :=
  rows.filter (fun fr => tradeable_row fr.row)

/-- The domain multi-select step (filters.py, lines 113-122): a falsy
(empty) selection skips the filter entirely. -/
def domain_step (selected : List String) (rows : List FeatRow) : List FeatRow :=
  if !selected.isEmpty then
    rows.filter (fun fr => selected.contains fr.domain)
  else rows

/-- The user-chosen values of every sidebar control in
`apply_global_filters` (filters.py).  Slider *bounds* are derived from
the data, but the applied thresholds are whatever the user picked. -/
structure GlobalFilterCfg where
  tradeable : Bool
  min_liq : ℚ
  max_liq : ℚ
  min_vol : ℚ
  max_vol : ℚ
  spread_min : ℚ
  spread_max : ℚ
  ttr_min : ℚ
  ttr_max : ℚ
  selected_domains : List String
  search : String
  binary_only : Bool
  exclude_updown : Bool

/-- `apply_global_filters` (filters.py, lines 9-144): the fixed filter
chain.  Pandas `str.contains` on the search box is modelled as plain
(case-lowered) substring containment. -/
def apply_global_filters (cfg : GlobalFilterCfg) (rows : List FeatRow) :
    List FeatRow :=
  let r1 := if cfg.tradeable then tradeable_step rows else rows
  if r1.isEmpty then r1 else
  let r2 := r1.filter (fun fr =>
    cfg.min_liq ≤ fr.row.liquidity_num.getD 0
      ∧ fr.row.liquidity_num.getD 0 ≤ cfg.max_liq)
  let r3 := r2.filter (fun fr =>
    cfg.min_vol ≤ fr.row.volume_24h.getD 0
      ∧ fr.row.volume_24h.getD 0 ≤ cfg.max_vol)
  let r4 := r3.filter (fun fr =>
    cfg.spread_min ≤ fr.spread.getD 1.0 ∧ fr.spread.getD 1.0 ≤ cfg.spread_max)
  let r5 := r4.filter (fun fr =>
    cfg.ttr_min ≤ fr.time_to_resolution_days.getD 1000000000
      ∧ fr.time_to_resolution_days.getD 1000000000 ≤ cfg.ttr_max)
  let r6 := domain_step cfg.selected_domains r5
  let r7 := if cfg.search ≠ "" then
      r6.filter (fun fr =>
        str_contains_ci cfg.search (fr.row.market_question.getD "")
          || str_contains_ci cfg.search (fr.row.event_title.getD ""))
    else r6
  let r8 := if cfg.binary_only then r7.filter (fun fr => fr.is_binary_like) else r7
  if cfg.exclude_updown then
    r8.filter (fun fr => !str_contains_ci "Up or Down" (fr.row.event_title.getD ""))
  else r8

/-- The screener-page toggles (3_Trading_Screener.py, lines 118-196)
and the chosen sort key. -/
inductive SortKey where
  | screener | quality | liquidity | volume | spreadKey | ttrKey
deriving Repr, DecidableEq

/-- The screener-page configuration. -/
structure ScreenerCfg where
  exclude_sports_crypto : Bool
  filter_active : Bool
  filter_liq : Bool
  filter_spread : Bool
  filter_vol : Bool
  filter_time : Bool
  sort_key : SortKey

/-- The screener-specific filter chain (3_Trading_Screener.py, lines
116-196).  The time filter drops missing values, mirroring that a NaN
comparison is falsy. -/
def apply_screener_filters (cfg : ScreenerCfg) (rows : List FeatRow) :
    List FeatRow :=
  let s1 := if cfg.exclude_sports_crypto then
      rows.filter (fun fr =>
        !has_tag_ci "Sports" fr.domain && !has_tag_ci "Crypto" fr.domain)
    else rows
  let s2 := if cfg.filter_active then
      s1.filter (fun fr =>
        fr.row.market_active.getD true == true
          && fr.row.market_closed.getD false == false
          && fr.row.enable_order_book.getD true == true
          && fr.row.accepting_orders.getD true == true)
    else s1
  let s3 := if cfg.filter_liq then
      s2.filter (fun fr =>
        200 ≤ fr.row.liquidity_num.getD 0 ∧ fr.row.liquidity_num.getD 0 ≤ 5000)
    else s2
  let s4 := if cfg.filter_spread then
      s3.filter (fun fr => max (fr.spread.getD 1.0) 0 ≤ 0.12)
    else s3
  let s5 := if cfg.filter_vol then
      s4.filter (fun fr => 20 ≤ fr.row.volume_24h.getD 0)
    else s4
  if cfg.filter_time then
    s5.filter (fun fr =>
      match fr.time_to_resolution_days with
      | none => false
      | some x => 2 ≤ x ∧ x ≤ 120)
  else s5

/-- The screener ranking score (3_Trading_Screener.py, lines 205-230),
computed against the filtered subset's liquidity maximum `m` (already
replaced by 1 when non-positive). -/
noncomputable def screener_score (m : ℚ) (fr : FeatRow) : ℝ :=
  let liq := fr.row.liquidity_num.getD 0
  let vol := fr.row.volume_24h.getD 0
  let spr := max (fr.spread.getD 1.0) 0
  let ttr := fr.time_to_resolution_days.getD 90.0
  let liq_s : ℝ := Real.log (1 + (liq : ℝ)) / Real.log (1 + (m : ℝ))
  let vol_s : ℚ := min (vol / 1000) 1
  let spread_s : ℚ := 1 - min (spr / 0.05) 1
  let ttr_c : ℚ := min (max ttr 3.0) 90.0
  let time_s : ℚ := 1 - min (|ttr_c - 45| / 45) 1
  0.35 * liq_s + 0.30 * (vol_s : ℝ) + 0.20 * (spread_s : ℝ) + 0.15 * (time_s : ℝ)

/-- One screener output row: features plus both page-local scores. -/
structure ScreenRow where
  fr : FeatRow
  screener_score : ℝ
  alpha_score : ℝ

/-- Attach `screener_score` (subset-relative maximum, lines 206-232)
and `alpha_score` (line 235) to each surviving row.  `str(row.get(..))`
on the title is modelled by the empty-string default. -/
noncomputable def add_screener_scores (rows : List FeatRow) : List ScreenRow :=
  let mx := max_liq_of (rows.map (fun fr =>
    ⟨fr.row.liquidity_num, fr.row.volume_24h, fr.spread, fr.time_to_resolution_days⟩))
  let m := if 0 < mx then mx else 1
  rows.map (fun fr =>
    { fr := fr
      screener_score := screener_score m fr
      alpha_score :=
        compute_alpha_score fr.row.liquidity_num fr.row.volume_24h fr.spread
          fr.time_to_resolution_days fr.domain (fr.row.event_title.getD "")
          fr.quality_score })

/-- Numeric key of each entry of `sort_options`
(3_Trading_Screener.py, lines 344-351). -/
noncomputable def sort_key_val (k : SortKey) (r : ScreenRow) : ℝ :=
  match k with
  | .screener => r.screener_score
  | .quality => r.fr.quality_score
  | .liquidity => ((r.fr.row.liquidity_num.getD 0 : ℚ) : ℝ)
  | .volume => ((r.fr.row.volume_24h.getD 0 : ℚ) : ℝ)
  | .spreadKey => ((r.fr.spread.getD 1.0 : ℚ) : ℝ)
  | .ttrKey => ((r.fr.time_to_resolution_days.getD 1000000000 : ℚ) : ℝ)

/-- Sort direction of each entry of `sort_options`: scores and volumes
descend, spread and time ascend. -/
def sort_asc : SortKey → Bool
  | .screener | .quality | .liquidity | .volume => false
  | .spreadKey | .ttrKey => true

/-- Insert into an already sorted list (comparator-respecting). -/
noncomputable def insertSorted (le : ScreenRow → ScreenRow → Bool)
    (a : ScreenRow) : List ScreenRow → List ScreenRow
  | [] => [a]
  | b :: bs => if le a b then a :: b :: bs else b :: insertSorted le a bs

/-- Deterministic comparison sort modelling `df.sort_values`. -/
noncomputable def sortRows (le : ScreenRow → ScreenRow → Bool) :
    List ScreenRow → List ScreenRow
  | [] => []
  | a :: as => insertSorted le a (sortRows le as)

/-- The comparator chosen by `sort_values(sort_col, ascending=..)`. -/
noncomputable def screener_cmp (k : SortKey) (a b : ScreenRow) : Bool :=
  if sort_asc k then decide (sort_key_val k a ≤ sort_key_val k b)
  else decide (sort_key_val k b ≤ sort_key_val k a)

/-- The full pipeline of the screener page (`main`,
3_Trading_Screener.py, lines 104-383, with features from
features.py): normalize+derive, global filters, screener filters,
scores, sort.  The clock reading `now` and the end-date column layout
are explicit parameters; the superforecaster stub is the identity. -/
noncomputable def run_pipeline (cols : TimeCols) (now : ℚ)
    (gcfg : GlobalFilterCfg) (scfg : ScreenerCfg) (rows : List Row) :
    List ScreenRow :=
  let feat := add_features cols now rows
  let filtered := apply_global_filters gcfg feat
  if filtered.isEmpty then [] else
  let screened := apply_screener_filters scfg filtered
  if screened.isEmpty then [] else
  sortRows (screener_cmp scfg.sort_key) (add_screener_scores screened)

/-- A fully-missing raw row, for concrete instantiations. -/
def emptyRow : Row :=
  { event_title := none, market_question := none, event_tags_labels := none
    outcomes_raw := none, bestBid := none, bestAsk := none
    liquidity_num := none, volume_24h := none, market_endDateIso := none
    market_endDate := none, event_endDate := none, market_active := none
    market_closed := none, enable_order_book := none, accepting_orders := none }

/-- A concrete featured row (domain "Sports"), for concrete
instantiations. -/
def sampleFeatRow : FeatRow :=
  { row := emptyRow, spread := none, mid_price := none
    time_to_resolution_days := none, is_binary_like := false
    flags := ⟨false, false, false, false, false, false, false, true, false⟩
    domain := "Sports", quality_score := 0 }

/-- A concrete sidebar configuration, for concrete instantiations. -/
def sampleGCfg : GlobalFilterCfg :=
  { tradeable := true, min_liq := 0, max_liq := 1000, min_vol := 0
    max_vol := 1000, spread_min := 0, spread_max := 1, ttr_min := -30
    ttr_max := 365, selected_domains := [], search := ""
    binary_only := false, exclude_updown := true }

/-- A concrete screener configuration, for concrete instantiations. -/
def sampleSCfg : ScreenerCfg :=
  { exclude_sports_crypto := true, filter_active := true, filter_liq := true
    filter_spread := true, filter_vol := true, filter_time := true
    sort_key := .screener }

/-- C1: the derived domain label follows the fixed priority order
Sports, Elections (Global Elections or Elections), Politics, Crypto
Prices, Crypto, Tech, Finance, Culture, else "Other"; the first true
flag wins, and in particular Sports beats Politics. -/
theorem domain_priority (f : TagFlags) :
    (f.is_sports = true → domainLabel f = "Sports") ∧
    (f.is_sports = false →
      (f.is_global_elections = true ∨ f.is_elections = true) →
      domainLabel f = "Elections") ∧
    (f.is_sports = false → f.is_global_elections = false →
      f.is_elections = false → f.is_politics = true →
      domainLabel f = "Politics") ∧
    (f.is_sports = false → f.is_global_elections = false →
      f.is_elections = false → f.is_politics = false →
      f.is_crypto_prices = true → domainLabel f = "Crypto Prices") ∧
    (f.is_sports = false → f.is_global_elections = false →
      f.is_elections = false → f.is_politics = false →
      f.is_crypto_prices = false → f.is_crypto = true →
      domainLabel f = "Crypto") ∧
    (f.is_sports = false → f.is_global_elections = false →
      f.is_elections = false → f.is_politics = false →
      f.is_crypto_prices = false → f.is_crypto = false →
      f.is_tech = true → domainLabel f = "Tech") ∧
    (f.is_sports = false → f.is_global_elections = false →
      f.is_elections = false → f.is_politics = false →
      f.is_crypto_prices = false → f.is_crypto = false →
      f.is_tech = false → f.is_finance = true → domainLabel f = "Finance") ∧
    (f.is_sports = false → f.is_global_elections = false →
      f.is_elections = false → f.is_politics = false →
      f.is_crypto_prices = false → f.is_crypto = false →
      f.is_tech = false → f.is_finance = false → f.is_culture = true →
      domainLabel f = "Culture") ∧
    (f.is_sports = false → f.is_global_elections = false →
      f.is_elections = false → f.is_politics = false →
      f.is_crypto_prices = false → f.is_crypto = false →
      f.is_tech = false → f.is_finance = false → f.is_culture = false →
      domainLabel f = "Other") ∧
    (f.is_sports = true ∧ f.is_politics = true → domainLabel f = "Sports") := by
  refine ⟨?_, ?_, ?_, ?_, ?_, ?_, ?_, ?_, ?_, ?_⟩
  · intro h; simp [domainLabel, h]
  · rintro h (h2 | h2) <;> simp [domainLabel, h, h2]
  · intro h1 h2 h3 h4; simp [domainLabel, h1, h2, h3, h4]
  · intro h1 h2 h3 h4 h5; simp [domainLabel, h1, h2, h3, h4, h5]
  · intro h1 h2 h3 h4 h5 h6; simp [domainLabel, h1, h2, h3, h4, h5, h6]
  · intro h1 h2 h3 h4 h5 h6 h7; simp [domainLabel, h1, h2, h3, h4, h5, h6, h7]
  · intro h1 h2 h3 h4 h5 h6 h7 h8
    simp [domainLabel, h1, h2, h3, h4, h5, h6, h7, h8]
  · intro h1 h2 h3 h4 h5 h6 h7 h8 h9
    simp [domainLabel, h1, h2, h3, h4, h5, h6, h7, h8, h9]
  · intro h1 h2 h3 h4 h5 h6 h7 h8 h9
    simp [domainLabel, h1, h2, h3, h4, h5, h6, h7, h8, h9]
  · rintro ⟨h1, h2⟩; simp [domainLabel, h1]

/-- Witness for C1 at a record flagged both Sports and Politics. -/
theorem domain_priority_witness :
    domainLabel ⟨false, false, true, false, false, false, false, true, false⟩
      = "Sports" :=
  (domain_priority ⟨false, false, true, false, false, false, false, true, false⟩).2.2.2.2.2.2.2.2.2
    ⟨rfl, rfl⟩

/-- C3: the alpha liquidity band is 0 at and below 100, ramps linearly
to 1 on (100,200), is 1 on [200,5000], ramps linearly back to 0 on
(5000,25000), and is 0 at and above 25000; in particular
`band_liq 150 = 0.5` and `band_liq 15000 = 0.5`. -/
theorem band_liq_spec :
    (band_liq (some 100) = 0 ∧ band_liq (some 200) = 1.0 ∧
      band_liq (some 5000) = 1.0 ∧ band_liq (some 25000) = 0 ∧
      band_liq (some 150) = 0.5 ∧ band_liq (some 15000) = 0.5) ∧
    (∀ x : ℚ,
      (x ≤ 100 → band_liq (some x) = 0) ∧
      (25000 ≤ x → band_liq (some x) = 0) ∧
      (200 ≤ x → x ≤ 5000 → band_liq (some x) = 1.0) ∧
      (100 < x → x < 200 → band_liq (some x) = (x - 100) / 100) ∧
      (5000 < x → x < 25000 → band_liq (some x) = 1 - (x - 5000) / 20000)) := by
  constructor
  · norm_num [band_liq]
  · intro x
    refine ⟨?_, ?_, ?_, ?_, ?_⟩
    · intro h
      simp only [band_liq]
      rw [if_pos h]
    · intro h
      simp only [band_liq]
      rw [if_neg (by linarith), if_neg (by rintro ⟨h1, h2⟩; linarith),
        if_neg (by rintro ⟨h1, h2⟩; linarith),
        if_neg (by rintro ⟨h1, h2⟩; linarith)]
    · intro h1 h2
      simp only [band_liq]
      rw [if_neg (by linarith), if_neg (by rintro ⟨a, b⟩; linarith),
        if_pos ⟨h1, h2⟩]
    · intro h1 h2
      simp only [band_liq]
      rw [if_neg (by linarith), if_pos ⟨h1, h2⟩]
    · intro h1 h2
      simp only [band_liq]
      rw [if_neg (by linarith), if_neg (by rintro ⟨a, b⟩; linarith),
        if_neg (by rintro ⟨a, b⟩; linarith), if_pos ⟨h1, h2⟩]

/-- Witness for C3 on both flat regions and both ramps. -/
theorem band_liq_spec_witness :
    band_liq (some 50) = 0 ∧ band_liq (some 300) = 1.0 ∧
      band_liq (some 120) = (120 - 100) / 100 ∧
      band_liq (some 10000) = 1 - (10000 - 5000) / 20000 :=
  ⟨(band_liq_spec.2 50).1 (by norm_num),
    (band_liq_spec.2 300).2.2.1 (by norm_num) (by norm_num),
    (band_liq_spec.2 120).2.2.2.1 (by norm_num) (by norm_num),
    (band_liq_spec.2 10000).2.2.2.2 (by norm_num) (by norm_num)⟩

/-- C7: the alpha domain multiplier is 1.0 on Elections, Global
Elections and Politics, 0.9 on Tech, Finance and Crypto, 0.7 on
Culture, 0.4 on Sports, 0.8 otherwise, and is halved exactly when the
title contains "Up or Down" (case-sensitive), whatever the domain. -/
theorem dom_mult_spec :
    (dom_mult "Elections" "" = 1.0 ∧ dom_mult "Global Elections" "" = 1.0 ∧
      dom_mult "Politics" "" = 1.0 ∧ dom_mult "Tech" "" = 0.9 ∧
      dom_mult "Finance" "" = 0.9 ∧ dom_mult "Crypto" "" = 0.9 ∧
      dom_mult "Culture" "" = 0.7 ∧ dom_mult "Sports" "" = 0.4) ∧
    (∀ d : String,
      d ∉ (["Elections", "Global Elections", "Politics", "Tech", "Finance",
        "Crypto", "Culture", "Sports"] : List String) →
      dom_mult d "" = 0.8) ∧
    (∀ d t : String, str_contains "Up or Down" t = true →
      dom_mult d t = dom_mult d "" * 0.5) ∧
    (∀ d t : String, str_contains "Up or Down" t = false →
      dom_mult d t = dom_mult d "") := by
  have hempty : str_contains "Up or Down" "" = false := by decide
  refine ⟨by simp [dom_mult, hempty], ?_, ?_, ?_⟩
  · intro d hd
    simp only [List.mem_cons, List.not_mem_nil, not_or, or_false] at hd
    obtain ⟨h1, h2, h3, h4, h5, h6, h7, h8⟩ := hd
    simp [dom_mult, hempty, h1, h2, h3, h4, h5, h6, h7, h8]
  · intro d t h
    simp [dom_mult, h, hempty]
  · intro d t h
    simp [dom_mult, h, hempty]

/-- Witness for C7: an unlisted domain scores 0.8, and an "Up or Down"
title halves the Sports multiplier. -/
theorem dom_mult_spec_witness :
    dom_mult "Other" "" = 0.8 ∧
      dom_mult "Sports" "Bitcoin Up or Down on May 16?"
        = dom_mult "Sports" "" * 0.5 ∧
      dom_mult "Elections" "Fed decision" = dom_mult "Elections" "" :=
  ⟨dom_mult_spec.2.1 "Other" (by decide),
    dom_mult_spec.2.2.1 "Sports" "Bitcoin Up or Down on May 16?" (by decide),
    dom_mult_spec.2.2.2 "Elections" "Fed decision" (by decide)⟩

/-- Filtering twice with one predicate equals filtering once. -/
theorem filter_self_idem {α : Type} (p : α → Bool) (l : List α) :
    (l.filter p).filter p = l.filter p := by
  induction l with
  | nil => rfl
  | cons a t ih =>
    by_cases h : p a
    · simp [List.filter_cons, h, ih]
    · simp [List.filter_cons, h, ih]

/-- C8: the tradeable-only filter step (active, not closed, order book
enabled, accepting orders, missing flags permissive) is idempotent. -/
theorem tradeable_step_idempotent (rows : List FeatRow) :
    tradeable_step (tradeable_step rows) = tradeable_step rows :=
  filter_self_idem _ rows

/-- C6: an empty domain multi-select leaves the table unfiltered,
while a non-empty selection keeps exactly the rows whose domain is
selected. -/
theorem domain_step_spec :
    (∀ rows : List FeatRow, domain_step [] rows = rows) ∧
    (∀ (selected : List String) (rows : List FeatRow) (fr : FeatRow),
      selected ≠ [] →
      (fr ∈ domain_step selected rows ↔ fr ∈ rows ∧ fr.domain ∈ selected)) := by
  constructor
  · intro rows
    simp [domain_step]
  · intro selected rows fr h
    have hne : selected.isEmpty = false := by
      cases selected with
      | nil => exact absurd rfl h
      | cons a t => rfl
    simp [domain_step, hne, List.mem_filter]

/-- Witness for C6: a "Sports" row survives the non-empty selection
["Sports"]. -/
theorem domain_step_spec_witness :
    sampleFeatRow ∈ domain_step ["Sports"] [sampleFeatRow] ↔
      sampleFeatRow ∈ [sampleFeatRow] ∧ sampleFeatRow.domain ∈ ["Sports"] :=
  domain_step_spec.2 ["Sports"] [sampleFeatRow] sampleFeatRow (by simp)

/-- C5: the derived time to resolution is `(end - now)` in days, with
the end timestamp drawn from the first present source in the order
market_endDateIso, market_endDate, event_endDate; it is missing when
none of the three is present, and negative when the resolution time is
already past. -/
theorem ttr_spec (cols : TimeCols) (now : ℚ) (r : TimeRow) :
    (cols.hasIso = true →
      time_to_resolution_days cols now r
        = r.market_endDateIso.map (fun e => (e - now) / (60 * 60 * 24))) ∧
    (cols.hasIso = false → cols.hasEnd = true →
      time_to_resolution_days cols now r
        = r.market_endDate.map (fun e => (e - now) / (60 * 60 * 24))) ∧
    (cols.hasIso = false → cols.hasEnd = false → cols.hasEvt = true →
      time_to_resolution_days cols now r
        = r.event_endDate.map (fun e => (e - now) / (60 * 60 * 24))) ∧
    (cols.hasIso = false → cols.hasEnd = false → cols.hasEvt = false →
      time_to_resolution_days cols now r = none) ∧
    (∀ e : ℚ, end_series cols r = some e → e < now →
      ∃ d : ℚ, time_to_resolution_days cols now r = some d ∧ d < 0) := by
  refine ⟨?_, ?_, ?_, ?_, ?_⟩
  · intro h
    simp [time_to_resolution_days, end_series, h]
  · intro h1 h2
    simp [time_to_resolution_days, end_series, h1, h2]
  · intro h1 h2 h3
    simp [time_to_resolution_days, end_series, h1, h2, h3]
  · intro h1 h2 h3
    simp [time_to_resolution_days, end_series, h1, h2, h3]
  · intro e he hlt
    refine ⟨(e - now) / (60 * 60 * 24), ?_, ?_⟩
    · simp [time_to_resolution_days, he]
    · apply div_neg_of_neg_of_pos
      · linarith
      · norm_num

/-- Witness for C5: with only the Iso column present and an end time
one day in the past, the derived value is exactly -1 day. -/
theorem ttr_spec_witness :
    time_to_resolution_days ⟨true, false, false⟩ 86400 ⟨some 0, none, none⟩
      = (some 0 : Option ℚ).map (fun e => (e - 86400) / (60 * 60 * 24)) ∧
    ∃ d : ℚ, time_to_resolution_days ⟨true, false, false⟩ 86400 ⟨some 0, none, none⟩
      = some d ∧ d < 0 :=
  ⟨(ttr_spec ⟨true, false, false⟩ 86400 ⟨some 0, none, none⟩).1 rfl,
    (ttr_spec ⟨true, false, false⟩ 86400 ⟨some 0, none, none⟩).2.2.2.2 0 rfl
      (by norm_num)⟩

/-- C4: the pipeline (derive features, filter, score, sort) is a pure
function of the input table, the end-date column layout, the clock
reading taken when features are derived, and the two filter
configurations: runs on equal inputs produce equal output tables. -/
theorem pipeline_deterministic (cols cols2 : TimeCols) (now now2 : ℚ)
    (g g2 : GlobalFilterCfg) (s s2 : ScreenerCfg) (rows rows2 : List Row)
    (hc : cols = cols2) (hn : now = now2) (hg : g = g2) (hs : s = s2)
    (hr : rows = rows2) :
    run_pipeline cols now g s rows = run_pipeline cols2 now2 g2 s2 rows2 := by
  subst hc hn hg hs hr
  rfl

/-- Witness for C4 at a concrete configuration and table. -/
theorem pipeline_deterministic_witness :
    run_pipeline ⟨true, true, true⟩ 0 sampleGCfg sampleSCfg [emptyRow]
      = run_pipeline ⟨true, true, true⟩ 0 sampleGCfg sampleSCfg [emptyRow] :=
  pipeline_deterministic ⟨true, true, true⟩ ⟨true, true, true⟩ 0 0
    sampleGCfg sampleGCfg sampleSCfg sampleSCfg [emptyRow] [emptyRow]
    rfl rfl rfl rfl rfl

/-- Every element of a list is at most its `max`-fold with seed 0. -/
theorem foldr_max_le {l : List ℚ} {x : ℚ} (hx : x ∈ l) : x ≤ l.foldr max 0 := by
  induction l with
  | nil => cases hx
  | cons a t ih =>
    simp only [List.foldr_cons]
    rcases List.mem_cons.mp hx with h | h
    · subst h
      exact le_max_left _ _
    · exact le_trans (ih h) (le_max_right _ _)

/-- The log-normalized liquidity component stays in [0,1] whenever the
record's liquidity is non-negative and bounded by the table maximum. -/
theorem liq_score_bounds {m liq : ℚ} (h0 : 0 ≤ liq) (hm : liq ≤ m) :
    0 ≤ liq_score m liq ∧ liq_score m liq ≤ 1 := by
  unfold liq_score
  split_ifs with hpos
  · have hl : (0 : ℝ) ≤ (liq : ℝ) := by exact_mod_cast h0
    have hmr : (0 : ℝ) < (m : ℝ) := by exact_mod_cast hpos
    have hlm : (liq : ℝ) ≤ (m : ℝ) := by exact_mod_cast hm
    have hlognum : 0 ≤ Real.log (1 + (liq : ℝ)) := Real.log_nonneg (by linarith)
    have hlogden : 0 < Real.log (1 + (m : ℝ)) := Real.log_pos (by linarith)
    have hle : Real.log (1 + (liq : ℝ)) ≤ Real.log (1 + (m : ℝ)) :=
      Real.log_le_log (by linarith) (by linarith)
    constructor
    · exact div_nonneg hlognum hlogden.le
    · rw [div_le_one hlogden]
      exact hle
  · norm_num

/-- The capped volume component stays in [0,1] for non-negative
volume. -/
theorem vol_score_bounds {v : ℚ} (h : 0 ≤ v) :
    0 ≤ vol_score v ∧ vol_score v ≤ 1 := by
  unfold vol_score
  exact ⟨le_min (by positivity) (by norm_num), min_le_right _ _⟩

/-- The spread component always stays in [0,1]. -/
theorem spread_score_bounds (s : Option ℚ) :
    0 ≤ spread_score s ∧ spread_score s ≤ 1 := by
  unfold spread_score
  have h0 : (0 : ℚ) ≤ max (s.getD 1.0) 0 := le_max_right _ _
  have hup : min (max (s.getD 1.0) 0 / 0.10) 1 ≤ 1 := min_le_right _ _
  have hlo : (0 : ℚ) ≤ min (max (s.getD 1.0) 0 / 0.10) 1 :=
    le_min (div_nonneg h0 (by norm_num)) (by norm_num)
  constructor <;> linarith

/-- The time component always stays in [0,1]. -/
theorem time_score_bounds (t : Option ℚ) :
    0 ≤ time_score t ∧ time_score t ≤ 1 := by
  unfold time_score
  have h0 : (0 : ℚ) ≤ max (t.getD 100.0) 0 := le_max_right _ _
  have hup : min (max (t.getD 100.0) 0 / 100) 1 ≤ 1 := min_le_right _ _
  have hlo : (0 : ℚ) ≤ min (max (t.getD 100.0) 0 / 100) 1 :=
    le_min (div_nonneg h0 (by norm_num)) (by norm_num)
  constructor <;> linarith

/-- C2: for every record of a table whose liquidity and 24h volume are
non-negative (or missing), the weighted quality score lies in [0,1]
(the exact model is total, so no NaN can arise), and the record with
zero liquidity, zero volume, missing spread and missing time scores
exactly 0 against any table maximum. -/
theorem quality_score_spec :
    (∀ (rows : List QInput) (r : QInput), r ∈ rows →
      0 ≤ r.liquidity_num.getD 0 → 0 ≤ r.volume_24h.getD 0 →
      0 ≤ compute_quality_score (max_liq_of rows) r ∧
        compute_quality_score (max_liq_of rows) r ≤ 1) ∧
    (∀ m : ℚ, compute_quality_score m ⟨some 0, some 0, none, none⟩ = 0) := by
  constructor
  · intro rows r hr hliq hvol
    have hle : r.liquidity_num.getD 0 ≤ max_liq_of rows := by
      unfold max_liq_of
      exact foldr_max_le (List.mem_map_of_mem _ hr)
    obtain ⟨l0, l1⟩ := liq_score_bounds hliq hle
    obtain ⟨v0, v1⟩ := vol_score_bounds hvol
    obtain ⟨s0, s1⟩ := spread_score_bounds r.spread
    obtain ⟨t0, t1⟩ := time_score_bounds r.time_to_resolution_days
    have v0r : (0 : ℝ) ≤ ((vol_score (r.volume_24h.getD 0) : ℚ) : ℝ) := by
      exact_mod_cast v0
    have v1r : ((vol_score (r.volume_24h.getD 0) : ℚ) : ℝ) ≤ 1 := by
      exact_mod_cast v1
    have s0r : (0 : ℝ) ≤ ((spread_score r.spread : ℚ) : ℝ) := by exact_mod_cast s0
    have s1r : ((spread_score r.spread : ℚ) : ℝ) ≤ 1 := by exact_mod_cast s1
    have t0r : (0 : ℝ) ≤ ((time_score r.time_to_resolution_days : ℚ) : ℝ) := by
      exact_mod_cast t0
    have t1r : ((time_score r.time_to_resolution_days : ℚ) : ℝ) ≤ 1 := by
      exact_mod_cast t1
    unfold compute_quality_score
    constructor <;> nlinarith [l0, l1]
  · intro m
    have hvol : vol_score ((some (0 : ℚ)).getD 0) = 0 := by
      norm_num [vol_score]
    have hspread : spread_score (none : Option ℚ) = 0 := by
      norm_num [spread_score, max_def, min_def]
    have htime : time_score (none : Option ℚ) = 0 := by
      norm_num [time_score, max_def, min_def]
    have hliq : liq_score m ((some (0 : ℚ)).getD 0) = 0 := by
      unfold liq_score
      split_ifs with h
      · norm_num
      · rfl
    unfold compute_quality_score
    rw [hliq]
    rw [hvol, hspread, htime]
    norm_num

/-- Witness for C2 on the one-row table holding the all-zero record. -/
theorem quality_score_spec_witness :
    (0 ≤ compute_quality_score
        (max_liq_of [⟨some 0, some 0, none, none⟩]) ⟨some 0, some 0, none, none⟩ ∧
      compute_quality_score
        (max_liq_of [⟨some 0, some 0, none, none⟩]) ⟨some 0, some 0, none, none⟩ ≤ 1) ∧
    compute_quality_score 7 ⟨some 0, some 0, none, none⟩ = 0 :=
  ⟨quality_score_spec.1 [⟨some 0, some 0, none, none⟩] ⟨some 0, some 0, none, none⟩
      (by simp) (by norm_num) (by norm_num),
    quality_score_spec.2 7⟩

/-- The liquidity band always stays in [0,1]. -/
theorem band_liq_mem (x : Option ℚ) : 0 ≤ band_liq x ∧ band_liq x ≤ 1 := by
  cases x with
  | none => simp [band_liq]
  | some v =>
    simp only [band_liq]
    split_ifs with h1 h2 h3 h4
    · norm_num
    · obtain ⟨a, b⟩ := h2
      constructor <;> linarith
    · norm_num
    · obtain ⟨a, b⟩ := h4
      constructor <;> linarith
    · norm_num

/-- The volume band always stays in [0,1]. -/
theorem band_vol_mem (x : Option ℚ) : 0 ≤ band_vol x ∧ band_vol x ≤ 1 := by
  cases x with
  | none => simp [band_vol]
  | some v =>
    simp only [band_vol]
    split_ifs with h1 h2 h3 h4
    · norm_num
    · obtain ⟨a, b⟩ := h2
      constructor <;> linarith
    · norm_num
    · obtain ⟨a, b⟩ := h4
      constructor <;> linarith
    · norm_num

/-- The spread band always stays in [0,1]. -/
theorem band_spread_mem (x : Option ℚ) : 0 ≤ band_spread x ∧ band_spread x ≤ 1 := by
  cases x with
  | none => simp [band_spread]
  | some v =>
    simp only [band_spread]
    split_ifs with h1 h2 h3 h4
    · norm_num
    · constructor
      · exact div_nonneg (by linarith) (by norm_num)
      · rw [div_le_one (by norm_num)]
        linarith
    · norm_num
    · obtain ⟨a, b⟩ := h4
      have hub : (v - 0.05) / 0.10 ≤ 1 := by
        rw [div_le_one (by norm_num)]
        linarith
      have hlb : 0 ≤ (v - 0.05) / 0.10 := div_nonneg (by linarith) (by norm_num)
      constructor <;> linarith
    · norm_num

/-- The time band always stays in [0,1]. -/
theorem band_time_mem (x : Option ℚ) : 0 ≤ band_time x ∧ band_time x ≤ 1 := by
  cases x with
  | none => simp [band_time]
  | some v =>
    simp only [band_time]
    split_ifs with h1 h2 h3 h4
    · norm_num
    · obtain ⟨a, b⟩ := h2
      constructor <;> linarith
    · norm_num
    · obtain ⟨a, b⟩ := h4
      constructor <;> linarith
    · norm_num

/-- The domain multiplier always stays in [0,1]. -/
theorem dom_mult_mem (d t : String) : 0 ≤ dom_mult d t ∧ dom_mult d t ≤ 1 := by
  unfold dom_mult
  dsimp only
  split_ifs <;> norm_num

/-- C10: whenever the quality score lies in [0,1], the alpha score --
the banded blend times the domain multiplier times the quality score --
also lies in [0,1], because every band stays in [0,1], the band
weights sum to 1, and the domain multiplier never exceeds 1. -/
theorem alpha_score_bounds (liq vol spr ttr : Option ℚ) (d t : String)
    (q : ℝ) (hq0 : 0 ≤ q) (hq1 : q ≤ 1) :
    0 ≤ compute_alpha_score liq vol spr ttr d t q ∧
      compute_alpha_score liq vol spr ttr d t q ≤ 1 := by
  obtain ⟨bl0, bl1⟩ := band_liq_mem liq
  obtain ⟨bv0, bv1⟩ := band_vol_mem vol
  obtain ⟨bs0, bs1⟩ := band_spread_mem spr
  obtain ⟨bt0, bt1⟩ := band_time_mem ttr
  obtain ⟨bd0, bd1⟩ := dom_mult_mem d t
  have hraw0 : (0 : ℚ) ≤ 0.30 * band_liq liq + 0.25 * band_vol vol
      + 0.20 * band_spread spr + 0.25 * band_time ttr := by linarith
  have hraw1 : 0.30 * band_liq liq + 0.25 * band_vol vol
      + 0.20 * band_spread spr + 0.25 * band_time ttr ≤ 1 := by linarith
  have hA0 : (0 : ℝ) ≤ ((0.30 * band_liq liq + 0.25 * band_vol vol
      + 0.20 * band_spread spr + 0.25 * band_time ttr : ℚ) : ℝ) := by
    exact_mod_cast hraw0
  have hA1 : ((0.30 * band_liq liq + 0.25 * band_vol vol
      + 0.20 * band_spread spr + 0.25 * band_time ttr : ℚ) : ℝ) ≤ 1 := by
    exact_mod_cast hraw1
  have hD0 : (0 : ℝ) ≤ ((dom_mult d t : ℚ) : ℝ) := by exact_mod_cast bd0
  have hD1 : ((dom_mult d t : ℚ) : ℝ) ≤ 1 := by exact_mod_cast bd1
  unfold compute_alpha_score
  constructor
  · exact mul_nonneg (mul_nonneg hA0 hD0) hq0
  · calc ((0.30 * band_liq liq + 0.25 * band_vol vol
        + 0.20 * band_spread spr + 0.25 * band_time ttr : ℚ) : ℝ)
        * ((dom_mult d t : ℚ) : ℝ) * q
        ≤ 1 * 1 * 1 := by
          apply mul_le_mul (mul_le_mul hA1 hD1 hD0 (by norm_num)) hq1 hq0
          norm_num
    _ = 1 := by norm_num

/-- Witness for C10 at an in-band record with quality one half. -/
theorem alpha_score_bounds_witness :
    0 ≤ compute_alpha_score (some 1000) (some 100) (some 0.02) (some 30)
        "Politics" "Who wins?" (1 / 2) ∧
      compute_alpha_score (some 1000) (some 100) (some 0.02) (some 30)
        "Politics" "Who wins?" (1 / 2) ≤ 1 :=
  alpha_score_bounds (some 1000) (some 100) (some 0.02) (some 30)
    "Politics" "Who wins?" (1 / 2) (by norm_num) (by norm_num)

/-- A list starts with itself before any tail. -/
theorem startsWith_self_append (p t : List Char) : startsWith p (p ++ t) = true := by
  induction p with
  | nil => rfl
  | cons c cs ih => simp [startsWith, ih]

/-- A successful prefix test decomposes the scanned list. -/
theorem startsWith_take {p : List Char} :
    ∀ {s : List Char}, startsWith p s = true → s = p ++ s.drop p.length := by
  induction p with
  | nil => intro s _; simp
  | cons c cs ih =>
    intro s h
    cases s with
    | nil => simp [startsWith] at h
    | cons d ds =>
      simp only [startsWith, Bool.and_eq_true, beq_iff_eq] at h
      obtain ⟨h1, h2⟩ := h
      subst h1
      simpa using ih h2

/-- A match found while scanning the tail is found from the head. -/
theorem hasTagAux_cons {name : List Char} {prev : Option Char} {c : Char}
    {cs : List Char} (h : hasTagAux name (some c) cs = true) :
    hasTagAux name prev (c :: cs) = true := by
  simp [hasTagAux, h]

/-- A word-boundary match at the current position is found by the
scan. -/
theorem hasTagAux_here {name : List Char} {prev : Option Char} {s : List Char}
    (h : matchWordB name prev s = true) : hasTagAux name prev s = true := by
  cases s with
  | nil => simpa [hasTagAux] using h
  | cons c cs => simp [hasTagAux, h]

/-- If every position-level match of `long` yields a scan success for
`short`, then scan success for `long` transfers to `short`. -/
theorem hasTagAux_lift {long short : List Char}
    (hstep : ∀ (prev : Option Char) (s : List Char),
      matchWordB long prev s = true → hasTagAux short prev s = true) :
    ∀ (s : List Char) (prev : Option Char),
      hasTagAux long prev s = true → hasTagAux short prev s = true := by
  intro s
  induction s with
  | nil =>
    intro prev h
    exact hstep prev [] (by simpa [hasTagAux] using h)
  | cons c cs ih =>
    intro prev h
    simp only [hasTagAux, Bool.or_eq_true] at h
    rcases h with h | h
    · exact hstep prev (c :: cs) h
    · exact hasTagAux_cons (ih (some c) h)

/-- A word-boundary match of "Crypto Prices" yields a scan success for
"Crypto" at the same position: "Crypto" is a prefix of the longer tag
and the character after it is the (non-word) space. -/
theorem matchWordB_CP_to_C {prev : Option Char} {s : List Char}
    (h : matchWordB ("Crypto Prices".toList) prev s = true) :
    hasTagAux ("Crypto".toList) prev s = true := by
  simp only [matchWordB, Bool.and_eq_true] at h
  obtain ⟨⟨hsw, hprev⟩, hafter⟩ := h
  have hs : s = "Crypto Prices".toList ++ s.drop ("Crypto Prices".toList.length) :=
    startsWith_take hsw
  apply hasTagAux_here
  simp only [matchWordB, Bool.and_eq_true]
  refine ⟨⟨?_, hprev⟩, ?_⟩
  · rw [hs]
    exact startsWith_self_append ("Crypto".toList)
      (' ' :: ("Prices".toList ++ s.drop ("Crypto Prices".toList.length)))
  · rw [hs]
    rfl

/-- A word-boundary match of "Global Elections" yields a scan success
for "Elections" seven characters later: the character before it is the
(non-word) space and the right boundary is the long match's. -/
theorem matchWordB_GE_to_E {prev : Option Char} {s : List Char}
    (h : matchWordB ("Global Elections".toList) prev s = true) :
    hasTagAux ("Elections".toList) prev s = true := by
  simp only [matchWordB, Bool.and_eq_true] at h
  obtain ⟨⟨hsw, hprev⟩, hafter⟩ := h
  have hs : s = "Global Elections".toList ++ s.drop ("Global Elections".toList.length) :=
    startsWith_take hsw
  rw [hs]
  apply hasTagAux_cons
  apply hasTagAux_cons
  apply hasTagAux_cons
  apply hasTagAux_cons
  apply hasTagAux_cons
  apply hasTagAux_cons
  apply hasTagAux_cons
  apply hasTagAux_here
  simp only [matchWordB, Bool.and_eq_true]
  refine ⟨⟨?_, rfl⟩, ?_⟩
  · exact startsWith_self_append ("Elections".toList)
      (s.drop ("Global Elections".toList.length))
  · exact hafter

/-- C9: the word-boundary match for a one-word tag also fires inside
the corresponding two-word tag, so for every record
`is_crypto_prices` implies `is_crypto` and `is_global_elections`
implies `is_elections`. -/
theorem tag_flag_implications (tags : Option String) :
    ((mkTagFlags tags).is_crypto_prices = true →
      (mkTagFlags tags).is_crypto = true) ∧
    ((mkTagFlags tags).is_global_elections = true →
      (mkTagFlags tags).is_elections = true) := by
  constructor
  · intro h
    have h2 : has_tag "Crypto Prices" (tags.getD "") = true := h
    show has_tag "Crypto" (tags.getD "") = true
    exact hasTagAux_lift (fun prev s hm => matchWordB_CP_to_C hm) _ _ h2
  · intro h
    have h2 : has_tag "Global Elections" (tags.getD "") = true := h
    show has_tag "Elections" (tags.getD "") = true
    exact hasTagAux_lift (fun prev s hm => matchWordB_GE_to_E hm) _ _ h2

/-- Witness for C9 on a record carrying both two-word tags. -/
theorem tag_flag_implications_witness :
    (mkTagFlags (some "Crypto Prices, Global Elections")).is_crypto = true ∧
      (mkTagFlags (some "Crypto Prices, Global Elections")).is_elections = true :=
  ⟨(tag_flag_implications (some "Crypto Prices, Global Elections")).1 (by decide),
    (tag_flag_implications (some "Crypto Prices, Global Elections")).2 (by decide)⟩

end Polymarkets
